import Mathlib

/-
Verification of the rag-core library (documents, chunks, vector store,
retrieval, reranking, grading, retry utility).

Modelling conventions:
- Python strings are modelled as `List Char` (`Str`), with executable
  helpers mirroring `str.lower()`, `str.split()`, `str.strip()`,
  `str.split(".")` and the substring test `in`.
- Python floats are modelled as rationals (`ℚ`).
- The database behind `PgVectorStore` is modelled as an explicit value
  (`Db`) threaded through every operation; the pgvector cosine-distance
  operator `<=>` is an opaque parameter `dist`.
- A psycopg connection is modelled by its `closed` flag, which is the only
  part of it the store's control flow inspects (`if not self._conn` is
  false for a connection object even after `close()`, and using a cursor
  on a closed connection raises the driver's connection-closed error).
- Fallible constructors (pydantic validation) return `Except`.
-/

set_option maxRecDepth 100000

namespace RagCore

abbrev Str := List Char

/-- Model of Python `str.lower()`. -/
def pyLower (s : Str) : Str := s.map Char.toLower

/-- Model of Python `str.split()` with no argument: split on whitespace runs and
drop empty pieces. -/
def pySplitWs (s : Str) : List Str :=
  (s.splitOnP (fun c => c.isWhitespace)).filter (fun w => !w.isEmpty)

/-- Model of Python `str.strip()`: remove leading and trailing whitespace. -/
def pyStrip (s : Str) : Str :=
  ((s.dropWhile Char.isWhitespace).reverse.dropWhile Char.isWhitespace).reverse

/-- Model of Python `answer.split(".")` (the only separator the grader uses):
split on every period, keeping empty pieces. -/
def pySplitDot (s : Str) : List Str := s.splitOnP (fun c => c == '.')

/-- Model of the Python substring test `needle in hay`. -/
def containsSub (hay needle : Str) : Bool :=
  hay.tails.any (fun t => needle.isPrefixOf t)

/-- Lexicographic order on modelled strings, as the database's `ORDER BY id ASC`
orders text keys. -/
def charListLe : Str → Str → Bool
  | [], _ => true
  | _ :: _, [] => false
  | a :: as, b :: bs => if a < b then true else if b < a then false else charListLe as bs

/-- Decimal representation of a natural number, for the f-string reasons the
graders build. -/
def natToStr (n : Nat) : Str := (Nat.repr n).toList

/-- Model of config.EMBEDDING_DIM with the default value of RAG_EMBEDDING_DIM
("1536"). -/
def EMBEDDING_DIM : Nat := 1536

/-- Pydantic validation error raised when constructing a model instance. -/
inductive ValidationError
  | embeddingDim (expected got : Nat)
  | emptyText
  | emptyTitle
  | fieldOutOfRange
deriving DecidableEq

/-- Model of rag_core.schemas.models.Chunk (the fields; validation is in
`mkChunk`). Timestamps are abstracted as rationals ordered as datetimes are. -/
structure Chunk where
  id : Str
  document_id : Str
  text : Str
  embedding : List ℚ
  metadata : List (Str × Str)
  chunk_index : Int
  start_char : Option Int
  end_char : Option Int
  created_at : ℚ
  updated_at : ℚ
deriving DecidableEq

/-- Model of Chunk.validate_embedding_dimension: reject an embedding whose
length differs from EMBEDDING_DIM, otherwise return it unchanged. -/
def Chunk.validate_embedding_dimension (v : List ℚ) : Except ValidationError (List ℚ) :=
  if v.length ≠ EMBEDDING_DIM then .error (.embeddingDim EMBEDDING_DIM v.length)
  else .ok v

/-- Model of constructing a Chunk through pydantic: `text` has `min_length=1`,
`chunk_index` has `ge=0`, `start_char`/`end_char` have `ge=0`, and the
`embedding` field validator enforces the configured dimension. -/
def mkChunk (id document_id : Str) (text : Str) (embedding : List ℚ)
    (metadata : List (Str × Str)) (chunk_index : Int)
    (start_char end_char : Option Int) (created_at updated_at : ℚ) :
    Except ValidationError Chunk :=
  if text.length < 1 then .error .emptyText
  else
    match Chunk.validate_embedding_dimension embedding with
    | .error e => .error e
    | .ok v =>
      if chunk_index < 0 then .error .fieldOutOfRange
      else if start_char.any (fun s => decide (s < 0)) then .error .fieldOutOfRange
      else if end_char.any (fun e => decide (e < 0)) then .error .fieldOutOfRange
      else .ok ⟨id, document_id, text, v, metadata, chunk_index,
                start_char, end_char, created_at, updated_at⟩

/-- Model of rag_core.schemas.models.Document. -/
structure Document where
  id : Str
  title : Str
  source_uri : Str
  content : Option Str
  metadata : List (Str × Str)
  ingested_at : ℚ
  updated_at : ℚ
deriving DecidableEq

/-- Model of rag_core.schemas.models.RetrievalResult (fields; validation in
`mkRetrievalResult`). -/
structure RetrievalResult where
  chunk : Chunk
  score : ℚ
  rank : Nat
deriving DecidableEq

/-- Model of constructing a RetrievalResult through pydantic: `score` has
`ge=0.0, le=1.0` and `rank` has `ge=1`. -/
def mkRetrievalResult (chunk : Chunk) (score : ℚ) (rank : Nat) :
    Except ValidationError RetrievalResult :=
  if score < 0 ∨ 1 < score then .error .fieldOutOfRange
  else if rank < 1 then .error .fieldOutOfRange
  else .ok ⟨chunk, score, rank⟩

/-- Model of rag_core.schemas.models.GradingResult; `metadata` always defaults
to the empty mapping in the deterministic graders. -/
structure GradingResult where
  passed : Bool
  score : ℚ
  reason : Option Str
  metadata : List (Str × Str)
deriving DecidableEq

/-- A psycopg connection as the store observes it: only its closed flag drives
the store's control flow. -/
structure PgConnection where
  closed : Bool
deriving DecidableEq

/-- Model of PgVectorStore's connection-holding state (`self._conn`). -/
structure PgVectorStore where
  conn : Option PgConnection
deriving DecidableEq

/-- Model of PgVectorStore.connect: reconnect only when the connection is
absent or closed. -/
def PgVectorStore.connect (st : PgVectorStore) : PgVectorStore :=
  match st.conn with
  | none => ⟨some ⟨false⟩⟩
  | some c => if c.closed then ⟨some ⟨false⟩⟩ else st

/-- Model of PgVectorStore.close: closes the held connection but, like the
source, never clears `self._conn`. -/
def PgVectorStore.close (st : PgVectorStore) : PgVectorStore :=
  match st.conn with
  | none => st
  | some c => if c.closed then st else ⟨some ⟨true⟩⟩

/-- Errors a store operation can surface: the store's own precondition
RuntimeError, the driver's error for using a closed connection, the
dimension-mismatch ValueError, and pydantic errors from rebuilding models
out of rows. -/
inductive StoreError
  | notConnected
  | connectionClosed
  | dimensionMismatch (expected got : Nat)
  | validation (e : ValidationError)
deriving DecidableEq

/-- Model of the two tables behind the store. -/
structure Db where
  documents : List Document
  chunks : List Chunk
deriving DecidableEq

/-- Model of `INSERT ... ON CONFLICT (id) DO UPDATE` for documents: the update
keeps the stored `ingested_at`, all the other non-key columns are replaced. -/
def upsertDocRow (rows : List Document) (doc : Document) : List Document :=
  if rows.any (fun r => r.id == doc.id) then
    rows.map (fun r =>
      if r.id == doc.id then
        { r with title := doc.title, source_uri := doc.source_uri,
                 content := doc.content, metadata := doc.metadata,
                 updated_at := doc.updated_at }
      else r)
  else rows ++ [doc]

/-- Model of `INSERT ... ON CONFLICT (id) DO UPDATE` for chunks: the update
keeps the stored `document_id` and `created_at`. -/
def upsertChunkRow (rows : List Chunk) (ch : Chunk) : List Chunk :=
  if rows.any (fun r => r.id == ch.id) then
    rows.map (fun r =>
      if r.id == ch.id then
        { r with text := ch.text, embedding := ch.embedding,
                 metadata := ch.metadata, chunk_index := ch.chunk_index,
                 start_char := ch.start_char, end_char := ch.end_char,
                 updated_at := ch.updated_at }
      else r)
  else rows ++ [ch]

/-- Model of PgVectorStore.upsert_document: guard `if not self._conn`, then a
cursor on the (possibly closed) connection, then the upsert and commit. -/
def PgVectorStore.upsert_document (st : PgVectorStore) (db : Db) (doc : Document) :
    Except StoreError Unit × PgVectorStore × Db :=
  match st.conn with
  | none => (.error .notConnected, st, db)
  | some c =>
    if c.closed then (.error .connectionClosed, st, db)
    else (.ok (), st, { db with documents := upsertDocRow db.documents doc })

/-- Model of PgVectorStore.get_document. Rebuilding the row into a Document is
elided (Document's validators do not bear on any claim). -/
def PgVectorStore.get_document (st : PgVectorStore) (db : Db) (doc_id : Str) :
    Except StoreError (Option Document) × PgVectorStore × Db :=
  match st.conn with
  | none => (.error .notConnected, st, db)
  | some c =>
    if c.closed then (.error .connectionClosed, st, db)
    else (.ok (db.documents.find? (fun r => r.id == doc_id)), st, db)

/-- Model of PgVectorStore.delete_document: delete the row, cascade to the
chunks via the foreign key, report whether a row existed. -/
def PgVectorStore.delete_document (st : PgVectorStore) (db : Db) (doc_id : Str) :
    Except StoreError Bool × PgVectorStore × Db :=
  match st.conn with
  | none => (.error .notConnected, st, db)
  | some c =>
    if c.closed then (.error .connectionClosed, st, db)
    else
      (.ok (db.documents.any (fun r => r.id == doc_id)), st,
       ⟨db.documents.filter (fun r => !(r.id == doc_id)),
        db.chunks.filter (fun ch => !(ch.document_id == doc_id))⟩)

/-- Model of PgVectorStore.upsert_chunk. -/
def PgVectorStore.upsert_chunk (st : PgVectorStore) (db : Db) (ch : Chunk) :
    Except StoreError Unit × PgVectorStore × Db :=
  match st.conn with
  | none => (.error .notConnected, st, db)
  | some c =>
    if c.closed then (.error .connectionClosed, st, db)
    else (.ok (), st, { db with chunks := upsertChunkRow db.chunks ch })

/-- Model of PgVectorStore.upsert_chunks_batch: the empty batch returns before
the connection guard; otherwise one executemany round trip, modelled as the
sequential row upserts it performs. -/
def PgVectorStore.upsert_chunks_batch (st : PgVectorStore) (db : Db) (chunks : List Chunk) :
    Except StoreError Unit × PgVectorStore × Db :=
  if chunks.isEmpty then (.ok (), st, db)
  else
    match st.conn with
    | none => (.error .notConnected, st, db)
    | some c =>
      if c.closed then (.error .connectionClosed, st, db)
      else (.ok (), st, { db with chunks := chunks.foldl upsertChunkRow db.chunks })

/-- Model of PgVectorStore.get_chunk. Rebuilding the row into a Chunk is elided
here (no claim depends on it for point lookups). -/
def PgVectorStore.get_chunk (st : PgVectorStore) (db : Db) (chunk_id : Str) :
    Except StoreError (Option Chunk) × PgVectorStore × Db :=
  match st.conn with
  | none => (.error .notConnected, st, db)
  | some c =>
    if c.closed then (.error .connectionClosed, st, db)
    else (.ok (db.chunks.find? (fun r => r.id == chunk_id)), st, db)

/-- Model of the jsonb containment test `metadata @> {key: value}` for the
single-pair equality filters the store builds. -/
def metadataContains (md : List (Str × Str)) (kv : Str × Str) : Bool :=
  md.any (fun p => p == kv)

/-- Model of the SQL `ORDER BY (embedding <=> q) ASC, id ASC` comparison. -/
def rowOrder (dist : List ℚ → List ℚ → ℚ) (q : List ℚ) (a b : Chunk) : Bool :=
  if dist a.embedding q < dist b.embedding q then true
  else if dist b.embedding q < dist a.embedding q then false
  else charListLe a.id b.id

/-- Model of the row-to-result loop of similarity_search: each row is rebuilt
into a Chunk (revalidated by pydantic) and wrapped into a RetrievalResult with
the row's similarity and `enumerate(rows, start=1)` rank. -/
def rowsToResults (dist : List ℚ → List ℚ → ℚ) (q : List ℚ) :
    List Chunk → Nat → Except StoreError (List RetrievalResult)
  | [], _ => .ok []
  | ch :: rest, rank =>
    match mkChunk ch.id ch.document_id ch.text ch.embedding ch.metadata
        ch.chunk_index ch.start_char ch.end_char ch.created_at ch.updated_at with
    | .error e => .error (.validation e)
    | .ok chunk =>
      match mkRetrievalResult chunk (1 - dist ch.embedding q) rank with
      | .error e => .error (.validation e)
      | .ok r =>
        match rowsToResults dist q rest (rank + 1) with
        | .error e => .error e
        | .ok rs => .ok (r :: rs)

/-- Model of PgVectorStore.similarity_search: connection guard, dimension
check, then the SQL query — metadata containment filters ANDed with the
similarity threshold, ordered by distance ascending with id ascending as the
tie-break, limited to top_k, ranks assigned 1.. in output order. -/
def PgVectorStore.similarity_search (st : PgVectorStore) (db : Db)
    (dist : List ℚ → List ℚ → ℚ) (query_embedding : List ℚ) (top_k : Nat)
    (filters : List (Str × Str)) (threshold : ℚ) :
    Except StoreError (List RetrievalResult) × PgVectorStore × Db :=
  match st.conn with
  | none => (.error .notConnected, st, db)
  | some c =>
    if query_embedding.length ≠ EMBEDDING_DIM then
      (.error (.dimensionMismatch EMBEDDING_DIM query_embedding.length), st, db)
    else if c.closed then (.error .connectionClosed, st, db)
    else
      let qualifies := fun ch : Chunk =>
        (filters.all (fun kv => metadataContains ch.metadata kv)) &&
          decide (threshold ≤ 1 - dist ch.embedding query_embedding)
      let rows := (List.insertionSort (fun a b => rowOrder dist query_embedding a b = true)
          (db.chunks.filter qualifies)).take top_k
      match rowsToResults dist query_embedding rows 1 with
      | .error e => (.error e, st, db)
      | .ok results => (.ok results, st, db)

/-- Model of rag_core.retrieval.reranker.Reranker (its strategy field). -/
structure Reranker where
  strategy : Str
deriving DecidableEq

/-- Model of the per-position boost `recency_factor = 1.0 - (i / n) * 0.1` of
Reranker._rerank_by_recency, for the `i`-th result (0-indexed) of a batch of
`n` ordered newest first. -/
def recencyFactor (i n : Nat) : ℚ := 1 - ((i : ℚ) / (n : ℚ)) * (1 / 10)

/-- Model of Reranker._rerank_by_recency: sort by creation time newest first
(Python's sort is stable, as is the insertion sort used here, and the two
agree on every total preorder), multiply each score by its recency factor,
re-sort by the boosted score descending, reassign ranks 1..N. -/
def Reranker.rerank_by_recency (results : List RetrievalResult) : List RetrievalResult :=
  if results.isEmpty then results
  else
    let sorted := List.insertionSort
      (fun a b => b.chunk.created_at ≤ a.chunk.created_at) results
    let n := sorted.length
    let boosted := sorted.mapIdx (fun i r => { r with score := r.score * recencyFactor i n })
    let resorted := List.insertionSort (fun a b => b.score ≤ a.score) boosted
    resorted.mapIdx (fun i r => { r with rank := i + 1 })

/-- Model of Reranker.rerank: pass through on strategy "none" or an empty
input, rerank on "recency", and fall back to pass-through (with a warning)
on any unknown strategy name. -/
def Reranker.rerank (self : Reranker) (results : List RetrievalResult) :
    List RetrievalResult :=
  if self.strategy == "none".toList || results.isEmpty then results
  else if self.strategy == "recency".toList then Reranker.rerank_by_recency results
  else results

/-- Model of rag_core.grading.deterministic.DeterministicRelevanceGrader
(threshold defaults to 0.3). -/
structure DeterministicRelevanceGrader where
  threshold : ℚ
deriving DecidableEq

/-- Model of Python `set(s.lower().split())`: the distinct lower-cased
whitespace-separated words, as a duplicate-free list. -/
def pyWordSet (s : Str) : List Str := (pySplitWs (pyLower s)).dedup

/-- Model of DeterministicRelevanceGrader.grade: keyword-overlap score
`|query_words ∩ text_words| / |query_words|` (0 when the query has no words),
passing when the score reaches the threshold. -/
def DeterministicRelevanceGrader.grade (g : DeterministicRelevanceGrader)
    (query text : Str) : GradingResult :=
  let query_words := pyWordSet query
  let text_words := pyWordSet text
  let overlap := query_words.filter (fun w => text_words.contains w)
  let score : ℚ :=
    if query_words.isEmpty then 0
    else (overlap.length : ℚ) / (query_words.length : ℚ)
  let passed := decide (g.threshold ≤ score)
  ⟨passed, score,
   if passed then none
   else some ("Keyword overlap: ".toList ++ natToStr overlap.length ++ "/".toList
     ++ natToStr query_words.length ++ " words".toList),
   []⟩

/-- Model of rag_core.grading.deterministic.DeterministicGroundednessGrader
(min_substring_length defaults to 10). -/
structure DeterministicGroundednessGrader where
  min_substring_length : Nat
deriving DecidableEq

/-- Model of the sentence extraction of DeterministicGroundednessGrader.grade:
`[s.strip() for s in answer.split(".") if len(s.strip()) > min_substring_length]`. -/
def groundednessSentences (minLen : Nat) (answer : Str) : List Str :=
  (pySplitDot answer).filterMap (fun s =>
    let t := pyStrip s
    if minLen < t.length then some t else none)

/-- Model of the per-sentence trigram test: lower-case and word-split the
sentence, skip it when it has fewer than 3 words, otherwise ask whether any
3-word sliding window joined by single spaces occurs in the lower-cased
context text. -/
def trigramMatched (contextLower : Str) (sentence : Str) : Bool :=
  let words := pySplitWs (pyLower sentence)
  if words.length < 3 then false
  else (List.range (words.length - 2)).any (fun i =>
    containsSub contextLower (List.intercalate [' '] ((words.drop i).take 3)))

/-- Model of DeterministicGroundednessGrader.grade: concatenate the context
texts with spaces, extract qualifying sentences, pass trivially with score 1.0
when there are none, otherwise score the fraction of sentences with a matching
trigram and pass at 0.5. -/
def DeterministicGroundednessGrader.grade (g : DeterministicGroundednessGrader)
    (answer : Str) (context : List RetrievalResult) : GradingResult :=
  let context_text := List.intercalate [' '] (context.map (fun r => r.chunk.text))
  let sentences := groundednessSentences g.min_substring_length answer
  if sentences.isEmpty then ⟨true, 1, some "No sentences to check".toList, []⟩
  else
    let matched := (sentences.filter (trigramMatched (pyLower context_text))).length
    let score : ℚ := (matched : ℚ) / (sentences.length : ℚ)
    let passed := decide ((1 : ℚ) / 2 ≤ score)
    ⟨passed, score,
     if passed then none
     else some ("Grounded sentences: ".toList ++ natToStr matched ++ "/".toList
       ++ natToStr sentences.length),
     []⟩

/-- Values a metadata filter can carry: a plain string or a list of strings
(the tags filter). -/
inductive FilterValue
  | str (s : Str)
  | strList (l : List Str)
deriving DecidableEq

/-- Model of rag_core.retrieval.filters.MetadataFilter.build_filters. Python
truthiness: None and the empty string/list are falsy. With a falsy `source` and
a truthy `sources` list, only the first element is used (documented JSONB @>
limitation, with a logged warning); `user_id` only logs and adds no filter. -/
def MetadataFilter.build_filters (category source : Option Str)
    (sources : Option (List Str)) (tags : Option (List Str))
    (user_id : Option Str) : List (Str × FilterValue) :=
  let f0 : List (Str × FilterValue) := []
  let f1 :=
    match category with
    | some c => if c.isEmpty then f0 else f0 ++ [("category".toList, .str c)]
    | none => f0
  let f2 :=
    match source with
    | some s =>
      if !s.isEmpty then f1 ++ [("source".toList, .str s)]
      else
        match sources with
        | some (x :: _) => f1 ++ [("source".toList, .str x)]
        | _ => f1
    | none =>
      match sources with
      | some (x :: _) => f1 ++ [("source".toList, .str x)]
      | _ => f1
  let f3 :=
    match tags with
    | some ts => if ts.isEmpty then f2 else f2 ++ [("tags".toList, .strList ts)]
    | none => f2
  let _ := user_id
  f3

/-- Outcome of running a function under retry_with_backoff: a returned value,
an exception propagating out of the wrapper, or the unreachable-loop
RuntimeError raised when the attempt range is empty. -/
inductive RetryOutcome (ε α : Type)
  | ok (a : α)
  | raised (e : ε)
  | logicError
deriving DecidableEq

/-- Observable trace of one run of a wrapped function: how many times the
function was called, the sleep durations in order, and the outcome. -/
structure RetryTrace (ε α : Type) where
  calls : Nat
  sleeps : List ℚ
  outcome : RetryOutcome ε α
deriving DecidableEq

/-- Model of the attempt loop of retry_with_backoff's wrapper. `remaining`
counts the attempts the range still holds, `attempt` is the 1-based attempt
number (so `remaining = 0` after a catch corresponds to
`attempt == max_retries`); a listed exception on the last attempt is re-raised,
otherwise the wrapper sleeps `delay` and multiplies it by the backoff factor;
an unlisted exception is not caught and propagates at once. -/
def retryGo (f : Nat → Except ε α) (listed : ε → Bool) :
    Nat → Nat → ℚ → ℚ → RetryTrace ε α
  | 0, _, _, _ => ⟨0, [], .logicError⟩
  | remaining + 1, attempt, delay, backoff =>
    match f attempt with
    | .ok v => ⟨1, [], .ok v⟩
    | .error e =>
      if listed e then
        if remaining = 0 then ⟨1, [], .raised e⟩
        else
          let t := retryGo f listed remaining (attempt + 1) (delay * backoff) backoff
          ⟨t.calls + 1, delay :: t.sleeps, t.outcome⟩
      else ⟨1, [], .raised e⟩

/-- Model of rag_core.utils.retry.retry_with_backoff applied to a wrapped
function `f`, where `f k` is the outcome of its `k`-th invocation: the loop
runs attempts 1..max_retries. -/
def retry_with_backoff (max_retries : Nat) (initial_delay backoff_factor : ℚ)
    (listed : ε → Bool) (f : Nat → Except ε α) : RetryTrace ε α :=
  retryGo f listed max_retries 1 initial_delay backoff_factor

/-- Claim C2: a wrong-length query embedding on a store that holds a
connection makes similarity_search fail with the dimension-mismatch error; the
result is this fixed error for every database state, with the store state and
the database returned unchanged, so no query is issued and the embedding is
never truncated or padded. -/
theorem similarity_search_dimension_guard :
    ∀ (st : PgVectorStore) (c : PgConnection) (db : Db)
      (dist : List ℚ → List ℚ → ℚ) (q : List ℚ) (top_k : Nat)
      (filters : List (Str × Str)) (threshold : ℚ),
    st.conn = some c → q.length ≠ EMBEDDING_DIM →
    PgVectorStore.similarity_search st db dist q top_k filters threshold
      = (.error (.dimensionMismatch EMBEDDING_DIM q.length), st, db) := by
  intro st c db dist q top_k filters threshold hconn hq
  obtain ⟨conn⟩ := st
  simp only [PgVectorStore.conn] at hconn
  subst hconn
  simp [PgVectorStore.similarity_search, hq]

/-- Witness for C2 at a concrete connected store and the empty query vector. -/
theorem similarity_search_dimension_guard_witness :
    ([] : List ℚ).length ≠ EMBEDDING_DIM
    ∧ PgVectorStore.similarity_search ⟨some ⟨false⟩⟩ ⟨[], []⟩ (fun _ _ => 0) [] 5 [] 0
        = (.error (.dimensionMismatch EMBEDDING_DIM 0), ⟨some ⟨false⟩⟩, ⟨[], []⟩) :=
  ⟨by decide,
   similarity_search_dimension_guard ⟨some ⟨false⟩⟩ ⟨false⟩ ⟨[], []⟩
     (fun _ _ => 0) [] 5 [] 0 rfl (by decide)⟩

/-- Claim C3: every attempted Chunk construction either succeeds with the
supplied embedding unchanged and of length exactly EMBEDDING_DIM, or fails
with a validation error; consequently every constructed Chunk satisfies the
embedding-length invariant. -/
theorem chunk_construction_embedding_invariant :
    ∀ (id document_id text : Str) (embedding : List ℚ)
      (metadata : List (Str × Str)) (chunk_index : Int)
      (start_char end_char : Option Int) (created_at updated_at : ℚ),
    ((∃ c, mkChunk id document_id text embedding metadata chunk_index
          start_char end_char created_at updated_at = .ok c
        ∧ c.embedding = embedding ∧ embedding.length = EMBEDDING_DIM)
      ∨ (∃ e, mkChunk id document_id text embedding metadata chunk_index
          start_char end_char created_at updated_at = .error e))
    ∧ (∀ c, mkChunk id document_id text embedding metadata chunk_index
          start_char end_char created_at updated_at = .ok c →
        c.embedding.length = EMBEDDING_DIM) := by
  intro id did text emb md ci sc ec ca ua
  have main :
      (∃ c, mkChunk id did text emb md ci sc ec ca ua = .ok c
          ∧ c.embedding = emb ∧ emb.length = EMBEDDING_DIM)
        ∨ (∃ e, mkChunk id did text emb md ci sc ec ca ua = .error e) := by
    by_cases h1 : text.length < 1
    · exact .inr ⟨.emptyText, by simp [mkChunk, h1]⟩
    · by_cases h2 : emb.length = EMBEDDING_DIM
      · by_cases h3 : ci < 0
        · exact .inr ⟨.fieldOutOfRange,
            by simp [mkChunk, Chunk.validate_embedding_dimension, h1, h2, h3]⟩
        · by_cases h4 : sc.any (fun s => decide (s < 0)) = true
          · exact .inr ⟨.fieldOutOfRange,
              by simp [mkChunk, Chunk.validate_embedding_dimension, h1, h2, h3, h4]⟩
          · by_cases h5 : ec.any (fun e => decide (e < 0)) = true
            · exact .inr ⟨.fieldOutOfRange,
                by simp [mkChunk, Chunk.validate_embedding_dimension, h1, h2, h3, h4, h5]⟩
            · refine .inl ⟨⟨id, did, text, emb, md, ci, sc, ec, ca, ua⟩, ?_, rfl, h2⟩
              simp [mkChunk, Chunk.validate_embedding_dimension, h1, h2, h3, h4, h5]
      · exact .inr ⟨.embeddingDim EMBEDDING_DIM emb.length,
          by simp [mkChunk, Chunk.validate_embedding_dimension, h1, h2]⟩
  refine ⟨main, ?_⟩
  intro c hc
  rcases main with ⟨c', h1, h2, h3⟩ | ⟨e, he⟩
  · rw [hc] at h1
    cases h1
    rw [h2, h3]
  · rw [hc] at he
    cases he

/-- Witness for C3 at a concrete valid construction. -/
theorem chunk_construction_embedding_invariant_witness :
    mkChunk "c1".toList "d1".toList "t".toList (List.replicate 1536 0) [] 0 none none 0 0
      = .ok ⟨"c1".toList, "d1".toList, "t".toList, List.replicate 1536 0, [], 0, none, none, 0, 0⟩
    ∧ (⟨"c1".toList, "d1".toList, "t".toList, List.replicate 1536 0, [], 0,
        none, none, 0, 0⟩ : Chunk).embedding.length = EMBEDDING_DIM := by
  have h := (chunk_construction_embedding_invariant "c1".toList "d1".toList "t".toList
    (List.replicate 1536 0) [] 0 none none 0 0).2
    ⟨"c1".toList, "d1".toList, "t".toList, List.replicate 1536 0, [], 0, none, none, 0, 0⟩
    rfl
  exact ⟨rfl, h⟩

/-- Claim C6: when no period-delimited unit of the answer is longer than the
minimum length (default 10), the groundedness grader passes trivially with
score exactly 1.0, for every supplied context. -/
theorem groundedness_vacuous_pass :
    ∀ (answer : Str) (context : List RetrievalResult),
    (∀ s ∈ pySplitDot answer, (pyStrip s).length ≤ 10) →
    DeterministicGroundednessGrader.grade ⟨10⟩ answer context
      = ⟨true, 1, some "No sentences to check".toList, []⟩ := by
  intro answer context h
  have hs : groundednessSentences 10 answer = [] := by
    rw [groundednessSentences, List.filterMap_eq_nil_iff]
    intro s hsmem
    have := h s hsmem
    simp only []
    rw [if_neg (by omega)]
  simp [DeterministicGroundednessGrader.grade, hs]

/-- Witness for C6: a short two-sentence answer and an empty context. -/
theorem groundedness_vacuous_pass_witness :
    (∀ s ∈ pySplitDot "hi. yes.".toList, (pyStrip s).length ≤ 10)
    ∧ DeterministicGroundednessGrader.grade ⟨10⟩ "hi. yes.".toList []
        = ⟨true, 1, some "No sentences to check".toList, []⟩ :=
  ⟨by decide, groundedness_vacuous_pass "hi. yes.".toList [] (by decide)⟩

/-- Claim C8: with a falsy source and a non-empty sources list, build_filters
maps the source key to the first element of the list only; the remaining
elements never influence the returned filters. -/
theorem build_filters_first_source_only :
    ∀ (category : Option Str) (s : Str) (rest : List Str)
      (tags : Option (List Str)) (user_id : Option Str),
    MetadataFilter.build_filters category none (some (s :: rest)) tags user_id
      = MetadataFilter.build_filters category none (some [s]) tags user_id
    ∧ (MetadataFilter.build_filters category none (some (s :: rest))
        tags user_id).lookup "source".toList = some (.str s) := by
  intro category s rest tags user_id
  have hks : ("source".toList == "category".toList) = false := by decide
  have hss : ("source".toList == "source".toList) = true := by decide
  refine ⟨rfl, ?_⟩
  rcases category with _ | c
  · rcases tags with _ | ts
    · simp [MetadataFilter.build_filters, List.lookup, hss]
    · rcases hts : ts.isEmpty with _ | _ <;>
        simp [MetadataFilter.build_filters, List.lookup, hss, hts]
  · rcases hc : c.isEmpty with _ | _
    · rcases tags with _ | ts
      · simp [MetadataFilter.build_filters, List.lookup, hss, hks, hc]
      · rcases hts : ts.isEmpty with _ | _ <;>
          simp [MetadataFilter.build_filters, List.lookup, hss, hks, hc, hts]
    · rcases tags with _ | ts
      · simp [MetadataFilter.build_filters, List.lookup, hss, hc]
      · rcases hts : ts.isEmpty with _ | _ <;>
          simp [MetadataFilter.build_filters, List.lookup, hss, hc, hts]

/-- Claim C4 (code bug): the recency boost of Reranker._rerank_by_recency is
documented (docstring and spec) as decaying from 1.0 for the newest chunk to
0.9 for the oldest, but the code computes `1.0 - (i / n) * 0.1`, so the oldest
chunk (i = n - 1) receives `0.9 + 1/(10 n)`, never 0.9. At the failing input —
two results with creation times 1 (newest) and 0 (oldest), both with score
1.0 — the oldest boosted score is 19/20 = 0.95, not 9/10. -/
theorem recency_boost_oldest_endpoint :
    (Reranker.rerank_by_recency
      [⟨⟨"a".toList, "d".toList, "t".toList, List.replicate 1536 0, [], 0, none, none, 0, 0⟩, 1, 1⟩,
       ⟨⟨"b".toList, "d".toList, "t".toList, List.replicate 1536 0, [], 0, none, none, 1, 1⟩, 1, 2⟩]).map
        (fun r => r.score) = [1, 19 / 20]
    ∧ recencyFactor 0 2 = 1
    ∧ recencyFactor 1 2 = 19 / 20
    ∧ (19 / 20 : ℚ) ≠ 9 / 10 := by
  refine ⟨?_, ?_, ?_, ?_⟩ <;> with_unfolding_all decide

/-- Counterexample to claim C5 as stated: after connect() followed by
close(), the store still holds the (now closed) connection object, so
upsert_document does not raise the precondition error — it fails with the
driver's connection-closed error instead; and upsert_chunks_batch with an
empty list returns successfully on a store that was never connected, raising
nothing at all. -/
theorem store_guard_claim_counterexample :
    (PgVectorStore.upsert_document (PgVectorStore.close (PgVectorStore.connect ⟨none⟩))
        ⟨[], []⟩ ⟨"x".toList, "t".toList, "u".toList, none, [], 0, 0⟩).1
      = .error .connectionClosed
    ∧ StoreError.connectionClosed ≠ StoreError.notConnected
    ∧ (PgVectorStore.upsert_chunks_batch ⟨none⟩ ⟨[], []⟩ []).1 = .ok () :=
  ⟨rfl, by decide, rfl⟩

/-- Claim C5 as amended: when connect() was never called (no connection object
is held), every store operation returns the precondition error synchronously
with the store state and database untouched (no implicit reconnect, no query)
— except upsert_chunks_batch on an empty list, which returns before the guard.
After close() the connection object is still held, so the precondition check
passes and operations instead fail with the driver's connection-closed error,
again with no reconnect (similarity_search checks the embedding dimension
first, so its closed-connection error is stated under a well-sized query). -/
theorem store_ops_disconnected_behavior :
    ∀ (db : Db) (doc : Document) (ch : Chunk) (chunks : List Chunk)
      (doc_id chunk_id : Str) (dist : List ℚ → List ℚ → ℚ) (q : List ℚ)
      (top_k : Nat) (filters : List (Str × Str)) (threshold : ℚ),
    PgVectorStore.upsert_document ⟨none⟩ db doc = (.error .notConnected, ⟨none⟩, db)
    ∧ PgVectorStore.get_document ⟨none⟩ db doc_id = (.error .notConnected, ⟨none⟩, db)
    ∧ PgVectorStore.delete_document ⟨none⟩ db doc_id = (.error .notConnected, ⟨none⟩, db)
    ∧ PgVectorStore.upsert_chunk ⟨none⟩ db ch = (.error .notConnected, ⟨none⟩, db)
    ∧ (chunks ≠ [] →
        PgVectorStore.upsert_chunks_batch ⟨none⟩ db chunks = (.error .notConnected, ⟨none⟩, db))
    ∧ PgVectorStore.upsert_chunks_batch ⟨none⟩ db [] = (.ok (), ⟨none⟩, db)
    ∧ PgVectorStore.get_chunk ⟨none⟩ db chunk_id = (.error .notConnected, ⟨none⟩, db)
    ∧ PgVectorStore.similarity_search ⟨none⟩ db dist q top_k filters threshold
        = (.error .notConnected, ⟨none⟩, db)
    ∧ PgVectorStore.upsert_document ⟨some ⟨true⟩⟩ db doc
        = (.error .connectionClosed, ⟨some ⟨true⟩⟩, db)
    ∧ PgVectorStore.get_document ⟨some ⟨true⟩⟩ db doc_id
        = (.error .connectionClosed, ⟨some ⟨true⟩⟩, db)
    ∧ PgVectorStore.delete_document ⟨some ⟨true⟩⟩ db doc_id
        = (.error .connectionClosed, ⟨some ⟨true⟩⟩, db)
    ∧ PgVectorStore.upsert_chunk ⟨some ⟨true⟩⟩ db ch
        = (.error .connectionClosed, ⟨some ⟨true⟩⟩, db)
    ∧ (chunks ≠ [] →
        PgVectorStore.upsert_chunks_batch ⟨some ⟨true⟩⟩ db chunks
          = (.error .connectionClosed, ⟨some ⟨true⟩⟩, db))
    ∧ PgVectorStore.get_chunk ⟨some ⟨true⟩⟩ db chunk_id
        = (.error .connectionClosed, ⟨some ⟨true⟩⟩, db)
    ∧ (q.length = EMBEDDING_DIM →
        PgVectorStore.similarity_search ⟨some ⟨true⟩⟩ db dist q top_k filters threshold
          = (.error .connectionClosed, ⟨some ⟨true⟩⟩, db)) := by
  intro db doc ch chunks doc_id chunk_id dist q top_k filters threshold
  refine ⟨rfl, rfl, rfl, rfl, ?_, rfl, rfl, rfl, rfl, rfl, rfl, rfl, ?_, rfl, ?_⟩
  · intro h
    cases chunks with
    | nil => exact absurd rfl h
    | cons a l => rfl
  · intro h
    cases chunks with
    | nil => exact absurd rfl h
    | cons a l => rfl
  · intro hq
    simp [PgVectorStore.similarity_search, hq]

/-- Witness for the amended C5 at concrete inputs: the two guarded conjuncts,
instantiated with a singleton batch and a well-sized query vector. -/
theorem store_ops_disconnected_behavior_witness :
    PgVectorStore.upsert_chunks_batch ⟨none⟩ ⟨[], []⟩
        [⟨"a".toList, "d".toList, "t".toList, List.replicate 1536 0, [], 0, none, none, 0, 0⟩]
      = (.error .notConnected, ⟨none⟩, ⟨[], []⟩)
    ∧ PgVectorStore.similarity_search ⟨some ⟨true⟩⟩ ⟨[], []⟩ (fun _ _ => 0)
        (List.replicate 1536 0) 5 [] 0
      = (.error .connectionClosed, ⟨some ⟨true⟩⟩, ⟨[], []⟩) := by
  obtain ⟨-, -, -, -, h5, -, -, -, -, -, -, -, -, -, h15⟩ :=
    store_ops_disconnected_behavior ⟨[], []⟩
      ⟨"x".toList, "t".toList, "u".toList, none, [], 0, 0⟩
      ⟨"a".toList, "d".toList, "t".toList, List.replicate 1536 0, [], 0, none, none, 0, 0⟩
      [⟨"a".toList, "d".toList, "t".toList, List.replicate 1536 0, [], 0, none, none, 0, 0⟩]
      [] [] (fun _ _ => 0) (List.replicate 1536 0) 5 [] 0
  exact ⟨h5 (List.cons_ne_nil _ _), h15 (by simp [EMBEDDING_DIM])⟩

/-- Mapping a rerank step that only adjusts score or rank over a result list
leaves the projected chunks unchanged. -/
theorem mapIdx_chunk_invariant (g : Nat → RetrievalResult → RetrievalResult)
    (hg : ∀ i r, (g i r).chunk = r.chunk) :
    ∀ l : List RetrievalResult,
      (List.mapIdx g l).map (fun r => r.chunk) = l.map (fun r => r.chunk) := by
  intro l
  induction l generalizing g with
  | nil => simp
  | cons a l ih =>
    rw [List.mapIdx_cons, List.map_cons, List.map_cons, hg,
      ih (fun i => g (i + 1)) (fun i r => hg (i + 1) r)]

/-- Reassigning ranks leaves the projected chunks unchanged. -/
theorem mapIdx_rank_chunks (l : List RetrievalResult) :
    (List.mapIdx (fun i r => { r with rank := i + 1 }) l).map (fun r => r.chunk)
      = l.map (fun r => r.chunk) :=
  mapIdx_chunk_invariant (fun i r => { r with rank := i + 1 }) (fun _ _ => rfl) l

/-- Boosting scores leaves the projected chunks unchanged. -/
theorem mapIdx_boost_chunks (f : Nat → ℚ) (l : List RetrievalResult) :
    (List.mapIdx (fun i r => { r with score := r.score * f i }) l).map (fun r => r.chunk)
      = l.map (fun r => r.chunk) :=
  mapIdx_chunk_invariant (fun i r => { r with score := r.score * f i }) (fun _ _ => rfl) l

/-- Projected chunks of a recency rerank are a permutation of the input's. -/
theorem rerank_by_recency_chunks_perm (results : List RetrievalResult) :
    ((Reranker.rerank_by_recency results).map (fun r => r.chunk)).Perm
      (results.map (fun r => r.chunk))
    ∧ (Reranker.rerank_by_recency results).length = results.length := by
  rcases h : results.isEmpty with _ | _
  · simp only [Reranker.rerank_by_recency, h, Bool.false_eq_true, if_false]
    constructor
    · rw [mapIdx_rank_chunks]
      refine ((List.perm_insertionSort _ _).map _).trans ?_
      rw [mapIdx_boost_chunks (fun i => recencyFactor i
        (List.insertionSort (fun a b => b.chunk.created_at ≤ a.chunk.created_at)
          results).length)]
      exact (List.perm_insertionSort _ _).map _
    · simp [List.length_mapIdx, (List.perm_insertionSort _ _).length_eq]
  · simp only [Reranker.rerank_by_recency, h, if_true]
    exact ⟨List.Perm.refl _, by simp⟩

/-- Claim C10: for every strategy name and input list, Reranker.rerank returns
a permutation of its input — no result is added, dropped, or duplicated (the
chunk payloads, which the Python code never replaces while mutating score and
rank in place, are multiset-equal), and the output length equals the input
length. -/
theorem rerank_is_permutation :
    ∀ (strategy : Str) (results : List RetrievalResult),
    ((Reranker.rerank ⟨strategy⟩ results).map (fun r => r.chunk)).Perm
        (results.map (fun r => r.chunk))
    ∧ (Reranker.rerank ⟨strategy⟩ results).length = results.length := by
  intro strategy results
  rw [Reranker.rerank]
  by_cases h1 : (strategy == "none".toList || results.isEmpty) = true
  · rw [if_pos h1]
    exact ⟨List.Perm.refl _, rfl⟩
  · rw [if_neg h1]
    by_cases h2 : (strategy == "recency".toList) = true
    · rw [if_pos h2]
      exact rerank_by_recency_chunks_perm results
    · rw [if_neg h2]
      exact ⟨List.Perm.refl _, rfl⟩

/-- Claim C7: the relevance grader's score is the size of the intersection of
the distinct lower-cased whitespace-split word sets of query and text divided
by the number of distinct query words (0 when the query has no words), it
passes exactly when the score reaches the threshold, and the example query
"machine learning models" against "I love machine learning" scores 2/3 and
passes at the default threshold 0.3. -/
theorem relevance_grade_overlap_score :
    (∀ (th : ℚ) (query text : Str),
      (DeterministicRelevanceGrader.grade ⟨th⟩ query text).score
        = (if pyWordSet query = [] then 0
           else (((pyWordSet query).inter (pyWordSet text)).length : ℚ)
             / ((pyWordSet query).length : ℚ))
      ∧ ((DeterministicRelevanceGrader.grade ⟨th⟩ query text).passed = true
          ↔ th ≤ (DeterministicRelevanceGrader.grade ⟨th⟩ query text).score))
    ∧ (DeterministicRelevanceGrader.grade ⟨3 / 10⟩ "machine learning models".toList
        "I love machine learning".toList).score = 2 / 3
    ∧ (DeterministicRelevanceGrader.grade ⟨3 / 10⟩ "machine learning models".toList
        "I love machine learning".toList).passed = true := by
  refine ⟨?_, ?_, ?_⟩
  · intro th query text
    constructor
    · by_cases hq : pyWordSet query = []
      · simp [DeterministicRelevanceGrader.grade, hq]
      · have hne : (pyWordSet query).isEmpty = false := by
          simp [List.isEmpty_iff, hq]
        simp only [DeterministicRelevanceGrader.grade, hne, Bool.false_eq_true,
          if_false, if_neg hq]
        rfl
    · simp only [DeterministicRelevanceGrader.grade]
      exact decide_eq_true_iff
  · with_unfolding_all decide
  · with_unfolding_all decide

/-- Telescoping of the geometric backoff delays: one sleep at the current
delay followed by the sleeps of the scaled-up tail. -/
theorem backoff_sleeps_cons (delay backoff : ℚ) (n : Nat) :
    delay :: (List.range n).map (fun k => delay * backoff * backoff ^ k)
      = (List.range (n + 1)).map (fun k => delay * backoff ^ k) := by
  rw [List.range_succ_eq_map, List.map_cons, List.map_map]
  have h1 : delay * backoff ^ 0 = delay := by
    rw [pow_zero, mul_one]
  have h2 : ((fun k => delay * backoff ^ k) ∘ Nat.succ)
      = fun k => delay * backoff * backoff ^ k := by
    funext k
    simp only [Function.comp]
    rw [pow_succ]
    ring
  rw [h1, h2]

/-- One unfolding step of the attempt loop. -/
theorem retryGo_succ_step (f : Nat → Except ε α) (listed : ε → Bool)
    (r attempt : Nat) (delay backoff : ℚ) :
    retryGo f listed (r + 1) attempt delay backoff
      = match f attempt with
        | .ok v => ⟨1, [], .ok v⟩
        | .error e =>
          if listed e then
            if r = 0 then ⟨1, [], .raised e⟩
            else
              let t := retryGo f listed r (attempt + 1) (delay * backoff) backoff
              ⟨t.calls + 1, delay :: t.sleeps, t.outcome⟩
          else ⟨1, [], .raised e⟩ := rfl

/-- Behaviour of the attempt loop when every attempt in range fails with a
listed exception: all `remaining` attempts run, the sleeps are the geometric
backoff series, and the last attempt's exception is re-raised. -/
theorem retryGo_all_fail (f : Nat → Except ε α) (listed : ε → Bool) :
    ∀ (r attempt : Nat) (delay backoff : ℚ),
    1 ≤ r →
    (∀ k, attempt ≤ k → k < attempt + r → ∃ e, f k = .error e ∧ listed e = true) →
    (retryGo f listed r attempt delay backoff).calls = r
    ∧ (retryGo f listed r attempt delay backoff).sleeps
        = (List.range (r - 1)).map (fun k => delay * backoff ^ k)
    ∧ ∃ e, f (attempt + r - 1) = .error e
        ∧ (retryGo f listed r attempt delay backoff).outcome = .raised e := by
  intro r
  induction r with
  | zero => intro attempt delay backoff h; exact absurd h (by omega)
  | succ r ih =>
    intro attempt delay backoff _ hfail
    obtain ⟨e, hfe, hle⟩ := hfail attempt (le_refl _) (by omega)
    rcases r with _ | r'
    · refine ⟨?_, ?_, e, ?_, ?_⟩ <;>
        simp [retryGo, hfe, hle]
    · obtain ⟨ihc, ihs, e', hfe', hout⟩ :=
        ih (attempt + 1) (delay * backoff) backoff (by omega)
          (fun k hk1 hk2 => hfail k (by omega) (by omega))
      have hidx : attempt + 1 + (r' + 1) - 1 = attempt + (r' + 1 + 1) - 1 := by omega
      have hstep : retryGo f listed (r' + 1 + 1) attempt delay backoff
          = ⟨(retryGo f listed (r' + 1) (attempt + 1) (delay * backoff) backoff).calls + 1,
             delay :: (retryGo f listed (r' + 1) (attempt + 1) (delay * backoff) backoff).sleeps,
             (retryGo f listed (r' + 1) (attempt + 1) (delay * backoff) backoff).outcome⟩ := by
        rw [retryGo_succ_step, hfe]
        simp [hle]
      refine ⟨?_, ?_, e', ?_, ?_⟩
      · rw [hstep]
        show (retryGo f listed (r' + 1) (attempt + 1) (delay * backoff) backoff).calls + 1
          = r' + 1 + 1
        rw [ihc]
      · rw [hstep]
        show delay :: (retryGo f listed (r' + 1) (attempt + 1) (delay * backoff) backoff).sleeps
          = (List.range (r' + 1 + 1 - 1)).map (fun k => delay * backoff ^ k)
        rw [ihs, Nat.add_sub_cancel, Nat.add_sub_cancel]
        exact backoff_sleeps_cons delay backoff r'
      · rw [← hidx]
        exact hfe'
      · rw [hstep]
        exact hout

/-- Behaviour of the attempt loop when the `j`-th attempt in range succeeds
after listed failures: exactly `j` calls, `j - 1` backoff sleeps, and the
successful value is returned at once. -/
theorem retryGo_succeeds (f : Nat → Except ε α) (listed : ε → Bool) :
    ∀ (j r attempt : Nat) (delay backoff : ℚ) (v : α),
    1 ≤ j → j ≤ r →
    f (attempt + j - 1) = .ok v →
    (∀ k, attempt ≤ k → k < attempt + j - 1 → ∃ e, f k = .error e ∧ listed e = true) →
    retryGo f listed r attempt delay backoff
      = ⟨j, (List.range (j - 1)).map (fun k => delay * backoff ^ k), .ok v⟩ := by
  intro j
  induction j with
  | zero => intro r attempt delay backoff v h; exact absurd h (by omega)
  | succ j ih =>
    intro r attempt delay backoff v _ hjr hok hfail
    rcases r with _ | r'
    · exact absurd hjr (by omega)
    · rcases j with _ | j'
      · have hok' : f attempt = .ok v := by
          rw [Nat.add_sub_cancel] at hok
          exact hok
        simp [retryGo, hok']
      · obtain ⟨e, hfe, hle⟩ := hfail attempt (le_refl _) (by omega)
        have hok' : f (attempt + 1 + (j' + 1) - 1) = .ok v := by
          have : attempt + 1 + (j' + 1) - 1 = attempt + (j' + 1 + 1) - 1 := by omega
          rw [this]
          exact hok
        have hrec := ih r' (attempt + 1) (delay * backoff) backoff v (by omega)
          (by omega) hok'
          (fun k hk1 hk2 => hfail k (by omega) (by omega))
        have hstep : retryGo f listed (r' + 1) attempt delay backoff
            = ⟨(retryGo f listed r' (attempt + 1) (delay * backoff) backoff).calls + 1,
               delay :: (retryGo f listed r' (attempt + 1) (delay * backoff) backoff).sleeps,
               (retryGo f listed r' (attempt + 1) (delay * backoff) backoff).outcome⟩ := by
          rw [retryGo_succ_step, hfe]
          have hr' : ¬ r' = 0 := by omega
          simp [hle, hr']
        rw [hstep, hrec, Nat.add_sub_cancel, Nat.add_sub_cancel]
        show (⟨j' + 1 + 1,
          delay :: (List.range j').map (fun k => delay * backoff * backoff ^ k),
          .ok v⟩ : RetryTrace ε α)
          = ⟨j' + 1 + 1, (List.range (j' + 1)).map (fun k => delay * backoff ^ k), .ok v⟩
        rw [backoff_sleeps_cons delay backoff j']

/-- Claim C9: under retry_with_backoff, a wrapped function that raises a
listed exception on every invocation is called exactly max_retries times, the
wrapper sleeps initial_delay times backoff_factor to the power (k-1) before
the k-th retry, and the final attempt's exception is re-raised; a successful
invocation returns its value immediately with no further attempts. -/
theorem retry_with_backoff_trace (max_retries : Nat)
    (initial_delay backoff_factor : ℚ) (listed : ε → Bool)
    (f : Nat → Except ε α) (hmax : 1 ≤ max_retries) :
    ((∀ k, 1 ≤ k → k ≤ max_retries → ∃ e, f k = .error e ∧ listed e = true) →
      (retry_with_backoff max_retries initial_delay backoff_factor listed f).calls
          = max_retries
      ∧ (retry_with_backoff max_retries initial_delay backoff_factor listed f).sleeps
          = (List.range (max_retries - 1)).map
              (fun k => initial_delay * backoff_factor ^ k)
      ∧ ∃ e, f max_retries = .error e
          ∧ (retry_with_backoff max_retries initial_delay backoff_factor
              listed f).outcome = .raised e)
    ∧ (∀ j v, 1 ≤ j → j ≤ max_retries → f j = .ok v →
        (∀ k, 1 ≤ k → k < j → ∃ e, f k = .error e ∧ listed e = true) →
        retry_with_backoff max_retries initial_delay backoff_factor listed f
          = ⟨j, (List.range (j - 1)).map (fun k => initial_delay * backoff_factor ^ k),
              .ok v⟩) := by
  constructor
  · intro hfail
    obtain ⟨hc, hs, e, hfe, hout⟩ :=
      retryGo_all_fail f listed max_retries 1 initial_delay backoff_factor hmax
        (fun k hk1 hk2 => hfail k hk1 (by omega))
    have hidx : 1 + max_retries - 1 = max_retries := by omega
    rw [hidx] at hfe
    exact ⟨hc, hs, e, hfe, hout⟩
  · intro j v hj hjm hok hprev
    have hok' : f (1 + j - 1) = .ok v := by
      have : 1 + j - 1 = j := by omega
      rw [this]
      exact hok
    exact retryGo_succeeds f listed j max_retries 1 initial_delay backoff_factor v hj hjm
      hok' (fun k hk1 hk2 => hprev k hk1 (by omega))

/-- Witness for C9: max_retries 3, delays 1 and factor 2, a function that
always raises listed exception 7, and another that succeeds on its second
invocation. -/
theorem retry_with_backoff_trace_witness :
    retry_with_backoff 3 1 2 (fun _ : Nat => true) (fun _ => (.error 7 : Except Nat Nat))
      = ⟨3, [1, 1 * 2 ^ 1], .raised 7⟩
    ∧ retry_with_backoff 3 1 2 (fun _ : Nat => true)
        (fun k => if k = 2 then (.ok 5 : Except Nat Nat) else .error 7)
      = ⟨2, [1], .ok 5⟩ := by
  constructor
  · obtain ⟨hc, hs, e, hfe, hout⟩ :=
      (retry_with_backoff_trace 3 1 2 (fun _ : Nat => true)
        (fun _ => (.error 7 : Except Nat Nat)) (by omega)).1
        (fun k _ _ => ⟨7, rfl, rfl⟩)
    have he : e = 7 := by
      injection hfe with h
      exact h.symm
    subst he
    have : (List.range (3 - 1)).map (fun k => (1 : ℚ) * 2 ^ k) = [1, 1 * 2 ^ 1] := by
      with_unfolding_all decide
    rw [this] at hs
    cases htr : retry_with_backoff 3 1 2 (fun _ : Nat => true)
        (fun _ => (.error 7 : Except Nat Nat)) with
    | mk c s o =>
      rw [htr] at hc hs hout
      rw [show c = 3 from hc, show s = [1, 1 * 2 ^ 1] from hs,
        show o = RetryOutcome.raised 7 from hout]
  · have h := (retry_with_backoff_trace 3 1 2 (fun _ : Nat => true)
      (fun k => if k = 2 then (.ok 5 : Except Nat Nat) else .error 7) (by omega)).2
      2 5 (by omega) (by omega) rfl
      (fun k hk1 hk2 => ⟨7, by
        have : ¬ k = 2 := by omega
        simp [this], rfl⟩)
    rw [h]
    have : (List.range (2 - 1)).map (fun k => (1 : ℚ) * 2 ^ k) = [1] := by
      with_unfolding_all decide
    rw [this]

/-- Totality of the lexicographic id order. -/
theorem charListLe_total : ∀ x y : Str, charListLe x y = true ∨ charListLe y x = true := by
  intro x
  induction x with
  | nil => intro y; exact .inl rfl
  | cons a as ih =>
    intro y
    cases y with
    | nil => exact .inr rfl
    | cons b bs =>
      rcases lt_trichotomy a b with h | h | h
      · left
        simp [charListLe, h]
      · subst h
        rcases ih bs with h' | h'
        · left
          simp [charListLe, lt_irrefl, h']
        · right
          simp [charListLe, lt_irrefl, h']
      · right
        simp [charListLe, h]

/-- Transitivity of the lexicographic id order. -/
theorem charListLe_trans : ∀ x y z : Str,
    charListLe x y = true → charListLe y z = true → charListLe x z = true := by
  intro x
  induction x with
  | nil => intro y z _ _; rfl
  | cons a as ih =>
    intro y z hxy hyz
    cases y with
    | nil => simp [charListLe] at hxy
    | cons b bs =>
      cases z with
      | nil => simp [charListLe] at hyz
      | cons c cs =>
        rcases lt_trichotomy a b with hab | hab | hab
        · rcases lt_trichotomy b c with hbc | hbc | hbc
          · simp [charListLe, lt_trans hab hbc]
          · subst hbc
            simp [charListLe, hab]
          · exfalso
            simp [charListLe, asymm hbc, hbc] at hyz
        · subst hab
          rcases lt_trichotomy a c with hac | hac | hac
          · simp [charListLe, hac]
          · subst hac
            simp only [charListLe, lt_irrefl, if_false] at hxy hyz ⊢
            exact ih bs cs hxy hyz
          · exfalso
            simp [charListLe, asymm hac, hac] at hyz
        · exfalso
          simp [charListLe, asymm hab, hab] at hxy

/-- Totality of the SQL row order used by similarity_search. -/
theorem rowOrder_total (dist : List ℚ → List ℚ → ℚ) (q : List ℚ) :
    ∀ a b : Chunk, rowOrder dist q a b = true ∨ rowOrder dist q b a = true := by
  intro a b
  unfold rowOrder
  rcases lt_trichotomy (dist a.embedding q) (dist b.embedding q) with h | h | h
  · left
    simp [h]
  · rcases charListLe_total a.id b.id with h' | h'
    · left
      simp [h, lt_irrefl, h']
    · right
      simp [h, lt_irrefl, h']
  · right
    simp [h]

/-- Transitivity of the SQL row order used by similarity_search. -/
theorem rowOrder_trans (dist : List ℚ → List ℚ → ℚ) (q : List ℚ) :
    ∀ a b c : Chunk, rowOrder dist q a b = true → rowOrder dist q b c = true →
      rowOrder dist q a c = true := by
  intro a b c hab hbc
  unfold rowOrder at *
  rcases lt_trichotomy (dist a.embedding q) (dist b.embedding q) with h1 | h1 | h1
  · rcases lt_trichotomy (dist b.embedding q) (dist c.embedding q) with h2 | h2 | h2
    · simp [lt_trans h1 h2]
    · rw [h2] at h1
      simp [h1]
    · exfalso
      simp [asymm h2, h2] at hbc
  · rcases lt_trichotomy (dist b.embedding q) (dist c.embedding q) with h2 | h2 | h2
    · rw [← h1] at h2
      simp [h2]
    · simp only [h1, h2, lt_irrefl, if_false] at hab hbc ⊢
      exact charListLe_trans a.id b.id c.id hab hbc
    · exfalso
      simp [asymm h2, h2] at hbc
  · exfalso
    simp [asymm h1, h1] at hab

/-- Rebuilding a chunk row through pydantic validation returns the row
unchanged when it succeeds. -/
theorem mkChunk_roundtrip (ch c : Chunk)
    (h : mkChunk ch.id ch.document_id ch.text ch.embedding ch.metadata
      ch.chunk_index ch.start_char ch.end_char ch.created_at ch.updated_at = .ok c) :
    c = ch := by
  unfold mkChunk Chunk.validate_embedding_dimension at h
  split at h
  · simp at h
  · split at h
    · simp at h
    · rename_i v heq
      split at heq
      · simp at heq
      · injection heq with heq
        split at h
        · simp at h
        · split at h
          · simp at h
          · split at h
            · simp at h
            · injection h with h
              rw [← h, ← heq]

/-- A successfully validated RetrievalResult is exactly its inputs. -/
theorem mkRetrievalResult_ok (c : Chunk) (s : ℚ) (k : Nat) (r : RetrievalResult)
    (h : mkRetrievalResult c s k = .ok r) : r = ⟨c, s, k⟩ := by
  unfold mkRetrievalResult at h
  split at h
  · simp at h
  · split at h
    · simp at h
    · injection h with h
      exact h.symm

/-- Characterization of the row-to-result loop on success: the results are the
rows in order, scored by similarity, ranked consecutively from the starting
rank. -/
theorem rowsToResults_ok (dist : List ℚ → List ℚ → ℚ) (q : List ℚ) :
    ∀ (rows : List Chunk) (r0 : Nat) (rs : List RetrievalResult),
    rowsToResults dist q rows r0 = .ok rs →
    rs = rows.mapIdx (fun i ch => ⟨ch, 1 - dist ch.embedding q, r0 + i⟩) := by
  intro rows
  induction rows with
  | nil =>
    intro r0 rs h
    simp only [rowsToResults] at h
    injection h with h
    rw [← h]
    rfl
  | cons ch rest ih =>
    intro r0 rs h
    simp only [rowsToResults] at h
    split at h
    · simp at h
    · rename_i chunk heq1
      split at h
      · simp at h
      · rename_i r heq2
        split at h
        · simp at h
        · rename_i rs' heq3
          injection h with h
          have hchunk := mkChunk_roundtrip ch chunk heq1
          have hr := mkRetrievalResult_ok chunk (1 - dist ch.embedding q) r0 r heq2
          have hrest := ih (r0 + 1) rs' heq3
          rw [← h, hr, hchunk, hrest, List.mapIdx_cons]
          have hfun : (fun i c2 => (⟨c2, 1 - dist c2.embedding q, r0 + 1 + i⟩ : RetrievalResult))
              = fun i c2 => ⟨c2, 1 - dist c2.embedding q, r0 + (i + 1)⟩ := by
            funext i c2
            congr 1
            omega
          rw [hfun]
          simp

/-- Elimination form of a true row-order comparison: either strictly closer,
or at equal distance with the id no larger. -/
theorem rowOrder_true_elim (dist : List ℚ → List ℚ → ℚ) (q : List ℚ) (a b : Chunk)
    (h : rowOrder dist q a b = true) :
    dist a.embedding q < dist b.embedding q
    ∨ (dist a.embedding q = dist b.embedding q ∧ charListLe a.id b.id = true) := by
  unfold rowOrder at h
  rcases lt_trichotomy (dist a.embedding q) (dist b.embedding q) with h1 | h1 | h1
  · exact .inl h1
  · right
    refine ⟨h1, ?_⟩
    simp only [h1, lt_irrefl, if_false] at h
    exact h
  · exfalso
    simp [asymm h1, h1] at h

/-- Claim C1: whenever similarity_search returns a result list, that list is
sorted by descending similarity score with ties broken by ascending chunk id,
and the rank of the i-th result (0-indexed here) is i + 1, that is, ranks are
1..N in output order. -/
theorem similarity_search_sorted_and_ranked :
    ∀ (st : PgVectorStore) (db : Db) (dist : List ℚ → List ℚ → ℚ) (q : List ℚ)
      (top_k : Nat) (filters : List (Str × Str)) (threshold : ℚ)
      (rs : List RetrievalResult) (st' : PgVectorStore) (db' : Db),
    PgVectorStore.similarity_search st db dist q top_k filters threshold
      = (.ok rs, st', db') →
    (∀ (i j : Nat) (hi : i < rs.length) (hj : j < rs.length), i < j →
      (rs[j].score < rs[i].score
        ∨ (rs[i].score = rs[j].score ∧ charListLe rs[i].chunk.id rs[j].chunk.id = true)))
    ∧ (∀ (i : Nat) (hi : i < rs.length), rs[i].rank = i + 1) := by
  intro st db dist q top_k filters threshold rs st' db' h
  obtain ⟨conn⟩ := st
  rcases conn with _ | c
  · simp [PgVectorStore.similarity_search] at h
  · simp only [PgVectorStore.similarity_search] at h
    split at h
    · simp at h
    · split at h
      · simp at h
      · split at h
        · simp at h
        · rename_i results heq
          simp only [Prod.mk.injEq] at h
          obtain ⟨hres, -, -⟩ := h
          injection hres with hres
          subst hres
          have hrows := rowsToResults_ok dist q _ 1 results heq
          subst hrows
          set L := (List.insertionSort (fun a b => rowOrder dist q a b = true)
            (db.chunks.filter (fun ch =>
              (filters.all (fun kv => metadataContains ch.metadata kv)) &&
                decide (threshold ≤ 1 - dist ch.embedding q)))).take top_k with hLdef
          have hsorted : List.Pairwise (fun a b => rowOrder dist q a b = true) L := by
            rw [hLdef]
            refine List.Pairwise.sublist (List.take_sublist _ _) ?_
            haveI : IsTotal Chunk (fun a b => rowOrder dist q a b = true) :=
              ⟨rowOrder_total dist q⟩
            haveI : IsTrans Chunk (fun a b => rowOrder dist q a b = true) :=
              ⟨rowOrder_trans dist q⟩
            exact List.sorted_insertionSort _ _
          constructor
          · intro i j hi hj hij
            have hi' : i < L.length := by
              simpa using hi
            have hj' : j < L.length := by
              simpa using hj
            have hro := List.pairwise_iff_getElem.mp hsorted i j hi' hj' hij
            rcases rowOrder_true_elim dist q _ _ hro with h1 | ⟨h1, h2⟩
            · left
              simp only [List.getElem_mapIdx]
              exact sub_lt_sub_left h1 1
            · right
              simp only [List.getElem_mapIdx]
              exact ⟨by rw [h1], h2⟩
          · intro i hi
            simp only [List.getElem_mapIdx]
            omega

/-- Witness for C1: a connected store over two equal-distance chunks stored in
reverse id order; the search returns them in ascending id order with ranks 1
and 2. -/
theorem similarity_search_sorted_and_ranked_witness :
    PgVectorStore.similarity_search ⟨some ⟨false⟩⟩
        ⟨[], [⟨"b".toList, "d".toList, "t".toList, List.replicate 1536 0, [], 0, none, none, 0, 0⟩,
              ⟨"a".toList, "d".toList, "t".toList, List.replicate 1536 0, [], 0, none, none, 0, 0⟩]⟩
        (fun _ _ => 0) (List.replicate 1536 0) 5 [] 0
      = (.ok [⟨⟨"a".toList, "d".toList, "t".toList, List.replicate 1536 0, [], 0, none, none, 0, 0⟩, 1, 1⟩,
              ⟨⟨"b".toList, "d".toList, "t".toList, List.replicate 1536 0, [], 0, none, none, 0, 0⟩, 1, 2⟩],
         ⟨some ⟨false⟩⟩,
         ⟨[], [⟨"b".toList, "d".toList, "t".toList, List.replicate 1536 0, [], 0, none, none, 0, 0⟩,
               ⟨"a".toList, "d".toList, "t".toList, List.replicate 1536 0, [], 0, none, none, 0, 0⟩]⟩)
    ∧ ([⟨⟨"a".toList, "d".toList, "t".toList, List.replicate 1536 0, [], 0, none, none, 0, 0⟩, 1, 1⟩,
        ⟨⟨"b".toList, "d".toList, "t".toList, List.replicate 1536 0, [], 0, none, none, 0, 0⟩, 1, 2⟩]
          : List RetrievalResult)[0].rank = 0 + 1
    ∧ ([⟨⟨"a".toList, "d".toList, "t".toList, List.replicate 1536 0, [], 0, none, none, 0, 0⟩, 1, 1⟩,
        ⟨⟨"b".toList, "d".toList, "t".toList, List.replicate 1536 0, [], 0, none, none, 0, 0⟩, 1, 2⟩]
          : List RetrievalResult)[1].rank = 1 + 1 := by
  have heq : PgVectorStore.similarity_search ⟨some ⟨false⟩⟩
        ⟨[], [⟨"b".toList, "d".toList, "t".toList, List.replicate 1536 0, [], 0, none, none, 0, 0⟩,
              ⟨"a".toList, "d".toList, "t".toList, List.replicate 1536 0, [], 0, none, none, 0, 0⟩]⟩
        (fun _ _ => 0) (List.replicate 1536 0) 5 [] 0
      = (.ok [⟨⟨"a".toList, "d".toList, "t".toList, List.replicate 1536 0, [], 0, none, none, 0, 0⟩, 1, 1⟩,
              ⟨⟨"b".toList, "d".toList, "t".toList, List.replicate 1536 0, [], 0, none, none, 0, 0⟩, 1, 2⟩],
         ⟨some ⟨false⟩⟩,
         ⟨[], [⟨"b".toList, "d".toList, "t".toList, List.replicate 1536 0, [], 0, none, none, 0, 0⟩,
               ⟨"a".toList, "d".toList, "t".toList, List.replicate 1536 0, [], 0, none, none, 0, 0⟩]⟩) := by
    with_unfolding_all rfl
  have h := similarity_search_sorted_and_ranked _ _ _ _ _ _ _ _ _ _ heq
  exact ⟨heq, h.2 0 (by decide), h.2 1 (by decide)⟩

end RagCore
